import Mathlib

/-
Verification of the Chessist native messaging host
(src/native-host/stockfish_host.py) against its specification.

Shallow embedding conventions:
- Python byte strings are `List Nat` (each entry one byte value).
- Python text strings are `List Char`.
- The outbound stdout pipe and the engine stdin pipe are modelled as
  explicit state / explicit command lists.
- Python exceptions are modelled with `Option` / `Except`; a `try ... except`
  block becomes a `match` on the fallible result.
- Thread interleavings are modelled as explicit event lists fed to the
  per-command and per-line handlers (the bodies of the main loop and of
  `read_stockfish_output`).
-/

namespace Chessist

/-! ## Framed channel codec (send_message / read_message framing layer)

`send_message` packs `struct.pack('I', len(encoded))` followed by the payload;
`read_message` reads 4 bytes, unpacks the length, reads that many bytes.
`struct.pack('I', n)` raises for `n ≥ 2^32`; on x86 the native byte order is
little-endian, and both ends use the same format character, so the codec is
modelled with little-endian 4-byte words. -/

/-- Little-endian 4-byte encoding of a length, as `struct.pack('I', n)`. -/
def pack_u32 (n : Nat) : List Nat :=
  [n % 256, n / 256 % 256, n / 65536 % 256, n / 16777216 % 256]

/-- Little-endian 4-byte decoding, as `struct.unpack('I', b)[0]`. -/
def unpack_u32 (b0 b1 b2 b3 : Nat) : Nat :=
  b0 + 256 * b1 + 65536 * b2 + 16777216 * b3

/-- The byte frame written by `send_message` for an already-serialized payload:
length prefix then payload.  `struct.pack('I', n)` raises `struct.error` for
`n ≥ 2^32`, modelled as `none`. -/
def send_frame (payload : List Nat) : Option (List Nat) :=
  if payload.length < 4294967296 then
    some (pack_u32 payload.length ++ payload)
  else
    none

/-- The frame reader of `read_message`: read 4 bytges of length prefix
(`none` on end of stream or a truncated prefix, both of which make
`read_message` return `None`), then read exactly `length` payload bytes;
a stream that ends inside the payload is a truncated frame (`none`, since
`json.loads` of a truncated document raises). Returns payload and leftover
stream. -/
def read_frame (stream : List Nat) : Option (List Nat × List Nat) :=
  match stream with
  | b0 :: b1 :: b2 :: b3 :: rest =>
    let len := unpack_u32 b0 b1 b2 b3
    if len ≤ rest.length then some (rest.take len, rest.drop len) else none
  | _ => none

/-- `read_message`, generic over the JSON deserializer `loads` (the
`json.loads` + `decode` step; it yields `none` where Python raises).
Returns the parsed message (or `none` for end-of-stream and for every
malformed frame alike — the source catches every exception and returns
`None`) together with the leftover stream. -/
def read_message {α : Type} (loads : List Nat → Option α) (stream : List Nat) :
    Option α × List Nat :=
  match read_frame stream with
  | some (payload, rest) => (loads payload, rest)
  | none => (none, [])

/-! ## The outbound writer with exception swallowing (send_message)

`send_message` wraps the whole encode/write/flush sequence in
`try ... except Exception: pass` under `stdout_lock`.  The pipe state
records the frames actually written and whether the pipe is broken. -/

/-- State of the outbound stdout pipe. -/
structure OutPipe where
  broken : Bool := false
  frames : List (List Nat) := []
deriving DecidableEq, Repr

/-- The body of `send_message` without the `try/except`: `struct.pack`
raises for an over-long payload, and writing or flushing a closed or
broken stdout raises `OSError`/`BrokenPipeError`. -/
def write_frame_raw (payload : List Nat) (st : OutPipe) : Except Unit OutPipe :=
  if 4294967296 ≤ payload.length then Except.error ()
  else if st.broken then Except.error ()
  else Except.ok { st with frames := st.frames ++ [pack_u32 payload.length ++ payload] }

/-- `send_message`: the body runs inside `try ... except Exception: pass`,
so any exception leaves the pipe state as it was and execution continues. -/
def send_message_checked (payload : List Nat) (st : OutPipe) : OutPipe :=
  match write_frame_raw payload st with
  | Except.ok s => s
  | Except.error _ => st

/-! ## Python string primitives used by the host

Text is modelled as `List Char`.  `pyStrip` is `str.strip()`, `splitWs` is
`str.split()` (split on whitespace runs, dropping empty fields), `findSub`
is `str.index`/the `in` operator (index of the first occurrence of a
substring), and `pyInt` is `int()` on the argument strings that occur here
(an optional sign followed by decimal digits; the whitespace-stripping and
underscore features of `int()` are irrelevant to the slices taken by this
program, which never contain whitespace or underscores). -/

/-- Python whitespace test (`str.isspace` characters relevant to `strip`). -/
def isSpc (c : Char) : Bool :=
  c == ' ' || c == '\t' || c == '\n' || c == '\r' || c == '\x0b' || c == '\x0c'

/-- `str.strip()`. -/
def pyStrip (l : List Char) : List Char :=
  ((l.dropWhile isSpc).reverse.dropWhile isSpc).reverse

/-- Helper of `splitWs`: `acc` holds the reversed current word. -/
def splitWsAux : List Char → List Char → List (List Char)
  | [], acc => if acc = [] then [] else [acc.reverse]
  | c :: rest, acc =>
    if isSpc c then
      if acc = [] then splitWsAux rest [] else acc.reverse :: splitWsAux rest []
    else splitWsAux rest (c :: acc)

/-- `str.split()` with no separator: split on whitespace runs, dropping
empty fields. -/
def splitWs (l : List Char) : List (List Char) :=
  splitWsAux l []

/-- Index of the first occurrence of `pat` as a contiguous substring
(`str.index`); `none` when absent (the `in` operator is `(findSub ..).isSome`). -/
def findSub (pat : List Char) : List Char → Option Nat
  | [] => if pat.isPrefixOf ([] : List Char) then some 0 else none
  | c :: rest =>
    if pat.isPrefixOf (c :: rest) then some 0
    else (findSub pat rest).map (· + 1)

/-- Decimal value of a digit string. -/
def digitsToNat (l : List Char) : Nat :=
  l.foldl (fun a c => a * 10 + (c.toNat - 48)) 0

/-- Python `int()` on a sign-then-digits string; `none` models `ValueError`. -/
def pyInt (s : List Char) : Option Int :=
  match s with
  | [] => none
  | c :: rest =>
    if c = '-' then
      if rest ≠ [] ∧ rest.all Char.isDigit then some (-(digitsToNat rest : Int)) else none
    else if c = '+' then
      if rest ≠ [] ∧ rest.all Char.isDigit then some ((digitsToNat rest : Int)) else none
    else if (c :: rest).all Char.isDigit then some ((digitsToNat (c :: rest) : Int))
    else none

/-! ## Engine protocol parser (parse_info)

`parse_info` builds a dict with optional keys depth, cp, mate, bestMove, pv,
nps; each extraction is wrapped in `try ... except Exception: pass`.  The
dict is modelled as a record of `Option` fields, one update function per
source block. -/

/-- The evaluation dict built by `parse_info`. -/
structure EvalData where
  depth : Option Int := none
  cp : Option Int := none
  mate : Option Int := none
  bestMove : Option (List Char) := none
  pv : Option (List (List Char)) := none
  nps : Option Int := none
deriving DecidableEq, Repr

/-- parse_info, depth block: `idx = line.index("depth ") + 6`, slice to the
next space (or end of line), `int()` it; any exception leaves the dict
unchanged. -/
def upd_depth (line : List Char) (d : EvalData) : EvalData :=
  match findSub ("depth ".toList) line with
  | some i =>
    match pyInt ((line.drop (i + 6)).takeWhile (fun c => !(c == ' '))) with
    | some v => { d with depth := some v }
    | none => d
  | none => d

/-- parse_info, score block: `score cp` takes priority; otherwise
`score mate`.  The value scan walks forward over digits and minus signs. -/
def upd_score (line : List Char) (d : EvalData) : EvalData :=
  match findSub ("score cp ".toList) line with
  | some i =>
    match pyInt ((line.drop (i + 9)).takeWhile (fun c => c.isDigit || c == '-')) with
    | some v => { d with cp := some v }
    | none => d
  | none =>
    match findSub ("score mate ".toList) line with
    | some i =>
      match pyInt ((line.drop (i + 11)).takeWhile (fun c => c.isDigit || c == '-')) with
      | some v => { d with mate := some v }
      | none => d
    | none => d

/-- parse_info, principal-variation block: `line[line.index(" pv ")+4:].split()`;
a nonempty token list sets bestMove to the first token and pv to all of them. -/
def upd_pv (line : List Char) (d : EvalData) : EvalData :=
  match findSub (" pv ".toList) line with
  | some i =>
    match splitWs (line.drop (i + 4)) with
    | [] => d
    | m :: rest => { d with bestMove := some m, pv := some (m :: rest) }
  | none => d

/-- parse_info, nodes-per-second block. -/
def upd_nps (line : List Char) (d : EvalData) : EvalData :=
  match findSub ("nps ".toList) line with
  | some i =>
    match pyInt ((line.drop (i + 4)).takeWhile (fun c => !(c == ' '))) with
    | some v => { d with nps := some v }
    | none => d
  | none => d

/-- `parse_info(line)`: runs the four extraction blocks in source order and
returns the dict only when a score (cp or mate) was found. -/
def parse_info (line : List Char) : Option EvalData :=
  let d := upd_nps line (upd_pv line (upd_score line (upd_depth line {})))
  if d.cp.isSome || d.mate.isSome then some d else none

/-! ## Data model: messages, commands, state, environment

Outbound messages mirror the dicts passed to `send_message`; engine
commands mirror the lines written to the engine stdin.  Free-text detail
of error and debug messages (interpolated exception text) is dropped; the
fixed leading text identifies the emission site.  The global module state
is gathered in `HostState`; `live` stands for
`stockfish_process is not None and stockfish_process.poll() is None`.
`Env` fixes the outcome of the environment interactions of one run:
whether `Popen` succeeds, whether the reader thread reports readiness
within the bounded wait loops, and whether writes to the engine stdin
raise `OSError`/`BrokenPipeError`. -/

/-- Outbound messages (the dicts given to `send_message`). -/
inductive OutMsg
  | started (path : List Char)
  | ready
  | analyzing (fen : List Char) (depth : Nat)
  | evalData (d : EvalData)
  | bestmove (move : Option (List Char))
  | error (msg : List Char)
  | debug (msg : List Char)
deriving DecidableEq, Repr

/-- Lines written to the engine stdin. -/
inductive EngineCmd
  | uci
  | isready
  | stop
  | quit
  | ucinewgame
  | setoption (name value : List Char)
  | position (fen : List Char)
  | go (depth : Nat)
deriving DecidableEq, Repr

/-- Parsed inbound commands (the dicts produced by `json.loads`;
`other` is any dict whose type matches no branch of the dispatcher). -/
inductive InMsg
  | evaluate (fen : Option (List Char)) (depth : Option Nat)
  | stop
  | reset
  | setOpt (name value : Option (List Char))
  | quit
  | other
deriving DecidableEq, Repr

/-- The module-level mutable state of the host. -/
structure HostState where
  live : Bool := false
  engine_ready : Bool := false
  analysis_in_progress : Bool := false
  stop_requested : Bool := false
  current_eval_fen : Option (List Char) := none
deriving DecidableEq, Repr

/-- Environment outcomes for one run. -/
structure Env where
  startOk : Bool := true
  readyBecomes : Bool := true
  pipeErr : Bool := false
  pipeErr2 : Bool := false
  writeOk : Bool := true
  foundPath : Option (List Char) := none
deriving DecidableEq, Repr

/-- `kill_stockfish()`: writes quit (attempted only when a process exists
and its pipe still works), terminates the process and clears the handle,
readiness and analysis flags. -/
def kill_stockfish (pipeOk : Bool) (st : HostState) : HostState × List EngineCmd :=
  ({ st with live := false, engine_ready := false, analysis_in_progress := false },
   if st.live && pipeOk then [EngineCmd.quit] else [])

/-- `start_stockfish()`: no-op when already running; on a successful spawn
the reader thread is started and `uci` is written; on `Popen` failure an
error message is sent and `False` returned. -/
def start_stockfish (env : Env) (st : HostState) :
    HostState × Bool × List OutMsg × List EngineCmd :=
  if st.live then (st, true, [], [])
  else if env.startOk then ({ st with live := true }, true, [], [EngineCmd.uci])
  else (st, false, [OutMsg.error ("Failed to start Stockfish".toList)], [])

/-- `analyze_position(fen, depth)`.  Clears `stop_requested`, records the
fen, ensures the engine is running, waits (bounded) for readiness, then in
a `try` block stops any current analysis and issues the analyzing message
and position/go commands; on a pipe error it emits a debug message, kills
and restarts the engine and re-issues the analysis (the second attempt
sends position/go and then the analyzing message).  `env.pipeErr` makes the
first engine-stdin write of the try block raise, `env.pipeErr2` the first
write of the retry block. -/
def analyze_position (env : Env) (fen : List Char) (depth : Nat) (st : HostState) :
    HostState × List OutMsg × List EngineCmd :=
  let st0 := { st with stop_requested := false, current_eval_fen := some fen }
  let ensure :=
    if st0.live then (st0, true, ([] : List OutMsg), ([] : List EngineCmd))
    else start_stockfish env st0
  match ensure with
  | (st1, started, ms1, cs1) =>
    if !started then (st1, ms1, cs1)
    else
      let ready := st1.engine_ready || env.readyBecomes
      let st2 := { st1 with engine_ready := ready }
      if !ready then
        (st2, ms1 ++ [OutMsg.error ("Engine not ready after timeout".toList)], cs1)
      else if !env.pipeErr then
        let stopCs := if st2.analysis_in_progress then [EngineCmd.stop] else []
        let st3 := { st2 with analysis_in_progress := true }
        (st3, ms1 ++ [OutMsg.analyzing (fen.take 50) depth],
         cs1 ++ stopCs ++ [EngineCmd.position fen, EngineCmd.go depth])
      else
        -- The raising write is the interrupting stop when an analysis is in
        -- progress (before the analyzing message), else the position write
        -- (after the analyzing message was already sent).
        let preMs := if st2.analysis_in_progress then ([] : List OutMsg)
                     else [OutMsg.analyzing (fen.take 50) depth]
        let st3 := { st2 with analysis_in_progress := false }
        let msDbg := [OutMsg.debug ("Pipe error, restarting engine".toList)]
        match kill_stockfish false st3 with
        | (st4, csK) =>
          match start_stockfish env st4 with
          | (st5, ok, ms5, cs5) =>
            if !ok then (st5, preMs ++ msDbg ++ ms1 ++ ms5, cs1 ++ csK ++ cs5)
            else
              let ready2 := env.readyBecomes
              let st6 := { st5 with engine_ready := ready2 }
              if !ready2 then (st6, preMs ++ msDbg ++ ms1 ++ ms5, cs1 ++ csK ++ cs5)
              else if env.pipeErr2 then
                ({ st6 with analysis_in_progress := false },
                 preMs ++ msDbg ++ ms1 ++ ms5 ++
                   [OutMsg.error ("Failed to restart analysis".toList)],
                 cs1 ++ csK ++ cs5)
              else
                ({ st6 with analysis_in_progress := true },
                 preMs ++ msDbg ++ ms1 ++ ms5 ++ [OutMsg.analyzing (fen.take 50) depth],
                 cs1 ++ csK ++ cs5 ++ [EngineCmd.position fen, EngineCmd.go depth])

/-- One iteration of the `read_stockfish_output` reader loop, for one line
read from the engine stdout: strip, skip empty lines, then dispatch on
uciok / readyok / `info depth` prefix / `bestmove` prefix. -/
def read_stockfish_line (line : List Char) (st : HostState) :
    HostState × List OutMsg × List EngineCmd :=
  let l := pyStrip line
  if l = [] then (st, [], [])
  else if l = "uciok".toList then
    (st, [], [EngineCmd.setoption ("Threads".toList) ("4".toList),
              EngineCmd.setoption ("Hash".toList) ("128".toList),
              EngineCmd.isready])
  else if l = "readyok".toList then
    if st.engine_ready then (st, [], [])
    else ({ st with engine_ready := true }, [OutMsg.ready], [])
  else if ("info depth".toList).isPrefixOf l then
    if st.stop_requested then (st, [], [])
    else
      match parse_info l with
      | some d => if 5 ≤ d.depth.getD 0 then (st, [OutMsg.evalData d], []) else (st, [], [])
      | none => (st, [], [])
  else if ("bestmove".toList).isPrefixOf l then
    let st1 := { st with analysis_in_progress := false }
    if st1.stop_requested then (st1, [], [])
    else (st1, [OutMsg.bestmove ((splitWs l)[1]?)], [])
  else (st, [], [])

/-- One iteration of the main loop dispatcher, for one parsed inbound
message.  The returned flag is true when the loop breaks (`quit`). -/
def main_dispatch (env : Env) (m : InMsg) (st : HostState) :
    HostState × List OutMsg × List EngineCmd × Bool :=
  match m with
  | InMsg.evaluate fen depth =>
    match fen with
    | some f =>
      if f ≠ [] then
        match analyze_position env f (depth.getD 18) st with
        | (st1, ms, cs) => (st1, ms, cs, false)
      else (st, [], [], false)
    | none => (st, [], [], false)
  | InMsg.stop =>
    let st1 := { st with stop_requested := true, analysis_in_progress := false }
    if st1.live then
      if env.writeOk then (st1, [], [EngineCmd.stop], false)
      else
        match kill_stockfish false st1 with
        | (st2, cs2) =>
          match start_stockfish env st2 with
          | (st3, _, ms3, cs3) => (st3, ms3, cs2 ++ cs3, false)
    else (st1, [], [], false)
  | InMsg.reset =>
    let st1 := { st with stop_requested := true, analysis_in_progress := false }
    if st1.live then
      if env.writeOk then
        (st1, [OutMsg.debug ("Engine reset (ucinewgame)".toList)],
         [EngineCmd.stop, EngineCmd.ucinewgame, EngineCmd.isready], false)
      else
        match kill_stockfish false st1 with
        | (st2, cs2) =>
          match start_stockfish env st2 with
          | (st3, _, ms3, cs3) =>
            (st3, ms3 ++ [OutMsg.debug ("Engine reset (restarted)".toList)],
             cs2 ++ cs3, false)
    else
      match start_stockfish env st1 with
      | (st2, _, ms2, cs2) =>
        (st2, ms2 ++ [OutMsg.debug ("Engine reset (restarted)".toList)], cs2, false)
  | InMsg.setOpt nm v =>
    -- `if name and value is not None and stockfish_process and ...`:
    -- a missing or empty name, a missing value, or a dead process skips
    -- the branch with no notice.
    match nm, v with
    | some n, some w =>
      if !n.isEmpty && st.live then
        if env.writeOk then
          (st, [OutMsg.debug ("Set option".toList)], [EngineCmd.setoption n w], false)
        else (st, [OutMsg.error ("Failed to set option".toList)], [], false)
      else (st, [], [], false)
    | _, _ => (st, [], [], false)
  | InMsg.quit => (st, [], [], true)
  | InMsg.other => (st, [], [], false)

/-- An event of the interleaved execution: a parsed host command handled
by the main loop, or an engine stdout line handled by the reader thread. -/
inductive Ev
  | host (m : InMsg)
  | engine (line : List Char)
deriving DecidableEq, Repr

/-- Run an interleaving of host commands and engine output lines,
accumulating outbound messages and engine commands in order. -/
def run_events (env : Env) : List Ev → HostState → HostState × List OutMsg × List EngineCmd
  | [], st => (st, [], [])
  | Ev.host m :: rest, st =>
    match main_dispatch env m st with
    | (st1, ms1, cs1, brk) =>
      if brk then (st1, ms1, cs1)
      else
        match run_events env rest st1 with
        | (st2, ms2, cs2) => (st2, ms1 ++ ms2, cs1 ++ cs2)
  | Ev.engine l :: rest, st =>
    match read_stockfish_line l st with
    | (st1, ms1, cs1) =>
      match run_events env rest st1 with
      | (st2, ms2, cs2) => (st2, ms1 ++ ms2, cs1 ++ cs2)

/-- The byte-level main loop: read one frame, break when `read_message`
returns `None` (end of stream or any malformed frame), otherwise dispatch
and continue.  Returns final state, outputs, leftover stream and whether
the loop exited (as opposed to running out of fuel). -/
def main_loop (env : Env) (loads : List Nat → Option InMsg) :
    Nat → List Nat → HostState →
    HostState × List OutMsg × List EngineCmd × List Nat × Bool
  | 0, stream, st => (st, [], [], stream, false)
  | Nat.succ fuel, stream, st =>
    match read_message loads stream with
    | (none, rest) => (st, [], [], rest, true)
    | (some m, rest) =>
      match main_dispatch env m st with
      | (st1, ms1, cs1, brk) =>
        if brk then (st1, ms1, cs1, rest, true)
        else
          match main_loop env loads fuel rest st1 with
          | (st2, ms2, cs2, left, ex) => (st2, ms1 ++ ms2, cs1 ++ cs2, left, ex)

/-- `main()`: locate the engine binary; if none is found, send one error
message and return (the process exits without ever entering the main
loop).  Otherwise announce the path, start the engine, run the loop and
clean up. -/
def py_main (env : Env) (loads : List Nat → Option InMsg) (fuel : Nat)
    (stream : List Nat) : List OutMsg × List EngineCmd × List Nat × Bool :=
  match env.foundPath with
  | none => ([OutMsg.error ("Stockfish not found".toList)], [], stream, true)
  | some p =>
    match start_stockfish env {} with
    | (st1, _, ms1, cs1) =>
      match main_loop env loads fuel stream st1 with
      | (st2, ms2, cs2, left, ex) =>
        match kill_stockfish env.writeOk st2 with
        | (_, cs3) =>
          (OutMsg.started p :: ms1 ++ ms2, cs1 ++ cs2 ++ cs3, left, ex)

/-- The messages carrying analysis results: `eval` and `bestmove`. -/
def result_msgs (ms : List OutMsg) : List OutMsg :=
  ms.filter (fun m =>
    match m with
    | OutMsg.bestmove _ => true
    | OutMsg.evalData _ => true
    | _ => false)

/-- The moves of the `bestmove` messages of a message list, in order. -/
def bestmove_moves (ms : List OutMsg) : List (Option (List Char)) :=
  ms.filterMap (fun m =>
    match m with
    | OutMsg.bestmove mv => some mv
    | _ => none)

/-- No occurrence of `pat` starts inside the first `xs.length` positions of
`xs ++ ls`.  Used to pin down the first occurrence that `str.index` finds. -/
def NoHit (pat xs ls : List Char) : Prop :=
  ∀ p, p < xs.length → pat.isPrefixOf ((xs ++ ls).drop p) = false

instance (pat xs ls : List Char) : Decidable (NoHit pat xs ls) :=
  Nat.decidableBallLT xs.length (fun p _ => pat.isPrefixOf ((xs ++ ls).drop p) = false)

/-! ### Codec lemmas -/

theorem unpack_pack_u32 (n : Nat) (h : n < 4294967296) :
    unpack_u32 (n % 256) (n / 256 % 256) (n / 65536 % 256) (n / 16777216 % 256) = n := by
  unfold unpack_u32
  omega

theorem read_frame_append (payload rest : List Nat)
    (h : payload.length < 4294967296) :
    read_frame (pack_u32 payload.length ++ payload ++ rest) = some (payload, rest) := by
  have hsplit : pack_u32 payload.length ++ payload ++ rest =
      payload.length % 256 :: (payload.length / 256 % 256 :: (payload.length / 65536 % 256 ::
        (payload.length / 16777216 % 256 :: (payload ++ rest)))) := by
    simp [pack_u32]
  rw [hsplit]
  unfold read_frame
  have hunpack := unpack_pack_u32 payload.length h
  simp only [hunpack]
  have hle : payload.length ≤ (payload ++ rest).length := by
    simp [List.length_append]
  simp [hle, List.take_left, List.drop_left]

/-- C3. Encode-then-decode is the identity: for every message value that
serializes (the deserializer `loads` inverts the serializer `dumps`) and
whose serialized payload fits the 4-byte unsigned length prefix, writing the
frame with `send_frame` and reading it back with `read_message` yields the
original message, leaving any following bytes untouched. -/
theorem c3_encode_decode_identity {α : Type} (dumps : α → List Nat)
    (loads : List Nat → Option α) (m : α) (rest : List Nat)
    (hround : loads (dumps m) = some m)
    (hlen : (dumps m).length < 4294967296) :
    send_frame (dumps m) = some (pack_u32 (dumps m).length ++ dumps m) ∧
    read_message loads (pack_u32 (dumps m).length ++ dumps m ++ rest) = (some m, rest) := by
  constructor
  · unfold send_frame
    simp [hlen]
  · unfold read_message
    rw [read_frame_append (dumps m) rest hlen]
    simp [hround]

/-- Witness for C3 at a concrete message type and serializer. -/
theorem c3_witness :
    ((fun l => if l = [116] then some true else if l = [102] then some false else none)
        ((fun b : Bool => if b then [116] else [102]) true) = some true) ∧
    ((fun b : Bool => if b then [116] else [102]) true).length < 4294967296 ∧
    read_message
      (fun l => if l = [116] then some true else if l = [102] then some false else none)
      (pack_u32 ((fun b : Bool => if b then [116] else [102]) true).length ++
        (fun b : Bool => if b then [116] else [102]) true ++ [9, 9]) = (some true, [9, 9]) :=
  ⟨by decide, by decide,
    (c3_encode_decode_identity (fun b : Bool => if b then [116] else [102])
      (fun l => if l = [116] then some true else if l = [102] then some false else none)
      true [9, 9] (by decide) (by decide)).2⟩

/-- C9. The outbound frame writer never raises: `send_message` catches every
exception of the encode/write/flush sequence.  For every payload and pipe
state, either the raw write succeeds and `send_message_checked` returns its
result, or the raw write raises and `send_message_checked` returns the state
unchanged (the failure is discarded); in particular a broken pipe never
propagates an exception. -/
theorem c9_send_message_never_raises (payload : List Nat) (st : OutPipe) :
    ((∃ s, write_frame_raw payload st = Except.ok s ∧ send_message_checked payload st = s) ∨
      (write_frame_raw payload st = Except.error () ∧ send_message_checked payload st = st)) ∧
    (st.broken = true → send_message_checked payload st = st) := by
  constructor
  · unfold send_message_checked
    cases h : write_frame_raw payload st with
    | ok s => exact Or.inl ⟨s, rfl, rfl⟩
    | error e => exact Or.inr ⟨rfl, rfl⟩
  · intro hb
    have h : write_frame_raw payload st = Except.error () := by
      unfold write_frame_raw
      rw [hb]
      split
      · rfl
      · simp
    unfold send_message_checked
    rw [h]

/-- Witness for C9: a write to a broken pipe is swallowed, leaving the pipe
state unchanged. -/
theorem c9_witness :
    (({ broken := true, frames := [] } : OutPipe).broken = true) ∧
    send_message_checked [1, 2] { broken := true, frames := [] } =
      { broken := true, frames := [] } :=
  ⟨rfl, (c9_send_message_never_raises [1, 2] { broken := true, frames := [] }).2 rfl⟩

/-! ## Claim theorems -/

/-- C7 counterexample.  Parsing the engine line `bestmove (none)` forwards
the literal token `(none)` as the move — a nonempty move string, not an
empty/none move field as the claim states. -/
theorem c7_counterexample :
    read_stockfish_line ("bestmove (none)".toList)
      { live := true, engine_ready := true, analysis_in_progress := true } =
      ({ live := true, engine_ready := true, analysis_in_progress := false },
       [OutMsg.bestmove (some ("(none)".toList))], []) ∧
    ("(none)".toList ≠ ([] : List Char)) ∧
    (some ("(none)".toList) ≠ (none : Option (List Char))) :=
  ⟨by decide, by decide, by decide⟩

/-- C7 amended.  A `bestmove (none)` line yields a bestmove message whose
move field is the literal second token `(none)` (not an error); a bestmove
line with no second whitespace-separated field yields a bestmove message
with no move.  Both require results not to be suppressed. -/
theorem c7_bestmove_token (st : HostState) (h : st.stop_requested = false) :
    read_stockfish_line ("bestmove (none)".toList) st =
      ({ st with analysis_in_progress := false },
       [OutMsg.bestmove (some ("(none)".toList))], []) ∧
    read_stockfish_line ("bestmove".toList) st =
      ({ st with analysis_in_progress := false }, [OutMsg.bestmove none], []) := by
  constructor <;> simp +decide [read_stockfish_line, h]

/-- Witness for C7 at a concrete state. -/
theorem c7_witness :
    (({ live := true, engine_ready := true, analysis_in_progress := true } :
        HostState).stop_requested = false) ∧
    read_stockfish_line ("bestmove".toList)
      { live := true, engine_ready := true, analysis_in_progress := true } =
      ({ live := true, engine_ready := true, analysis_in_progress := false },
       [OutMsg.bestmove none], []) :=
  ⟨rfl, (c7_bestmove_token
    { live := true, engine_ready := true, analysis_in_progress := true } rfl).2⟩

/-- C6 counterexample.  A `set_option` command received while no engine
process is live produces no outbound message at all — it is silently
swallowed, with no debug-level notice; likewise an `evaluate` command
without a fen. -/
theorem c6_counterexample :
    main_dispatch {} (InMsg.setOpt (some ("Skill Level".toList)) (some ("5".toList)))
      { live := false, engine_ready := false } =
      ({ live := false, engine_ready := false }, [], [], false) ∧
    main_dispatch {} (InMsg.evaluate none none)
      { live := true, engine_ready := true } =
      ({ live := true, engine_ready := true }, [], [], false) :=
  ⟨by decide, by decide⟩

/-- C6 amended.  A `set_option` command received while no engine process is
live is silently dropped: no outbound message (debug or otherwise), no
engine command and no state change; an `evaluate` command carrying no fen
(or an empty fen) is likewise silently dropped. -/
theorem c6_silent_drops (env : Env) (nm v : Option (List Char))
    (d : Option Nat) (st : HostState) (h : st.live = false) :
    main_dispatch env (InMsg.setOpt nm v) st = (st, [], [], false) ∧
    main_dispatch env (InMsg.evaluate none d) st = (st, [], [], false) ∧
    main_dispatch env (InMsg.evaluate (some []) d) st = (st, [], [], false) := by
  refine ⟨?_, rfl, by simp [main_dispatch]⟩
  cases nm <;> cases v <;> simp [main_dispatch, h]

/-- Witness for C6 at a concrete dead-engine state. -/
theorem c6_witness :
    (({ live := false, engine_ready := false } : HostState).live = false) ∧
    main_dispatch {} (InMsg.setOpt (some ("Threads".toList)) (some ("2".toList)))
      { live := false, engine_ready := false } =
      ({ live := false, engine_ready := false }, [], [], false) :=
  ⟨rfl, (c6_silent_drops {} (some ("Threads".toList)) (some ("2".toList)) none
    { live := false, engine_ready := false } rfl).1⟩

/-- C5 counterexample.  With no engine binary located, `main` sends a single
error message and returns immediately: the main loop never runs, the
pending well-formed `evaluate` frame on stdin is never read (the whole
stream is left over), and the process exits — the bridge does not stay
alive reporting subsequent attempts. -/
theorem c5_counterexample :
    py_main { foundPath := none }
      (fun b => if b = [7] then some (InMsg.evaluate (some ['f']) none) else none)
      5 [1, 0, 0, 0, 7] =
      ([OutMsg.error ("Stockfish not found".toList)], [], [1, 0, 0, 0, 7], true) :=
  by decide

/-- C5 amended.  When no engine binary can be located, the bridge reports
the failure once and exits at once: `main` returns before entering the main
loop, so no inbound frame is consumed and no `evaluate` is ever processed
(in particular no submission can reach `Starting`, and no per-attempt
failure reports are produced). -/
theorem c5_no_engine_exits (env : Env) (loads : List Nat → Option InMsg)
    (fuel : Nat) (stream : List Nat) (h : env.foundPath = none) :
    py_main env loads fuel stream =
      ([OutMsg.error ("Stockfish not found".toList)], [], stream, true) := by
  unfold py_main
  rw [h]

/-- Witness for C5. -/
theorem c5_witness :
    (({ foundPath := none } : Env).foundPath = (none : Option (List Char))) ∧
    py_main { foundPath := none } (fun _ => none) 3 [1, 2, 3] =
      ([OutMsg.error ("Stockfish not found".toList)], [], [1, 2, 3], true) :=
  ⟨rfl, c5_no_engine_exits { foundPath := none } (fun _ => none) 3 [1, 2, 3] rfl⟩

/-- C2 counterexample.  A malformed first frame (intact 4-byte length
prefix and payload, but invalid JSON — the deserializer fails) terminates
the main loop: nothing is dispatched and the following well-formed
`evaluate` frame is left unread.  Running the loop on that second frame
alone shows it would have been processed (an analyzing message and
position/go commands are produced). -/
theorem c2_counterexample :
    main_loop {} (fun b => if b = [7] then some (InMsg.evaluate (some ['f']) none) else none)
      5 [3, 0, 0, 0, 1, 2, 3, 1, 0, 0, 0, 7] { live := true, engine_ready := true } =
      ({ live := true, engine_ready := true }, [], [], [1, 0, 0, 0, 7], true) ∧
    main_loop {} (fun b => if b = [7] then some (InMsg.evaluate (some ['f']) none) else none)
      5 [1, 0, 0, 0, 7] { live := true, engine_ready := true } =
      ({ live := true, engine_ready := true, analysis_in_progress := true,
         current_eval_fen := some ['f'] },
       [OutMsg.analyzing ['f'] 18], [EngineCmd.position ['f'], EngineCmd.go 18], [], true) :=
  ⟨by decide, by decide⟩

/-- C2 amended.  `read_message` returns `None` for every malformed frame
(truncated length prefix, truncated payload, undecodable or unparsable
payload) exactly as it does at end of stream, and the main loop exits on
`None`: a single malformed inbound frame terminates the main loop with
nothing dispatched, rather than being dropped in favour of subsequent
frames. -/
theorem c2_malformed_terminates_loop (env : Env) (loads : List Nat → Option InMsg)
    (fuel : Nat) (stream rest : List Nat) (st : HostState)
    (h : read_message loads stream = (none, rest)) :
    main_loop env loads (fuel + 1) stream st = (st, [], [], rest, true) := by
  simp [main_loop, h]

/-- Witness for C2: a frame whose payload is not valid JSON ends the loop. -/
theorem c2_witness :
    read_message (fun _ => (none : Option InMsg)) [3, 0, 0, 0, 9, 9, 9] =
      ((none : Option InMsg), ([] : List Nat)) ∧
    main_loop {} (fun _ => (none : Option InMsg)) 1 [3, 0, 0, 0, 9, 9, 9] {} =
      ({}, [], [], [], true) :=
  ⟨by decide, c2_malformed_terminates_loop {} (fun _ => none) 0 [3, 0, 0, 0, 9, 9, 9] [] {}
    (by decide)⟩

/-- C10.  Every analyzing message emitted by `analyze_position` — on the
normal path or on the restart path after a pipe-error recovery — carries
exactly the first 50 characters of the submitted FEN (and the submitted
depth), while every position command written to the engine carries the
full untruncated FEN; consequently for every FEN longer than 50 characters
the reported fen differs from the submitted one. -/
theorem c10_fen_truncation (env : Env) (fen : List Char) (depth : Nat) (st : HostState) :
    (∀ f d, OutMsg.analyzing f d ∈ (analyze_position env fen depth st).2.1 →
      f = fen.take 50 ∧ d = depth) ∧
    (∀ f, EngineCmd.position f ∈ (analyze_position env fen depth st).2.2 → f = fen) ∧
    (50 < fen.length → fen.take 50 ≠ fen) := by
  refine ⟨?_, ?_, ?_⟩
  · obtain ⟨live, ready, aip, stopr, cf⟩ := st
    obtain ⟨so, rb, pe, pe2, wo, fp⟩ := env
    cases live <;> cases so <;> cases ready <;> cases rb <;> cases pe <;> cases aip <;>
      cases pe2 <;>
      simp [analyze_position, start_stockfish, kill_stockfish]
  · obtain ⟨live, ready, aip, stopr, cf⟩ := st
    obtain ⟨so, rb, pe, pe2, wo, fp⟩ := env
    cases live <;> cases so <;> cases ready <;> cases rb <;> cases pe <;> cases aip <;>
      cases pe2 <;>
      simp [analyze_position, start_stockfish, kill_stockfish]
  · intro hlen hcontra
    have hlength := congrArg List.length hcontra
    rw [List.length_take] at hlength
    omega

/-- Witness for C10 at the standard starting-position FEN (56 characters):
the reported fen is a strict truncation, and a concrete run emits exactly
the truncated analyzing message. -/
theorem c10_witness :
    (50 < ("rnbqkbnr/pppppppp/8/8/8/8/PPPPPPPP/RNBQKBNR w KQkq - 0 1".toList).length ∧
      ("rnbqkbnr/pppppppp/8/8/8/8/PPPPPPPP/RNBQKBNR w KQkq - 0 1".toList).take 50 ≠
        "rnbqkbnr/pppppppp/8/8/8/8/PPPPPPPP/RNBQKBNR w KQkq - 0 1".toList) ∧
    (("rnbqkbnr/pppppppp/8/8/8/8/PPPPPPPP/RNBQKBNR w KQkq - 0 1".toList).take 50 =
        ("rnbqkbnr/pppppppp/8/8/8/8/PPPPPPPP/RNBQKBNR w KQkq - 0 1".toList).take 50 ∧
      18 = 18) :=
  ⟨⟨by decide,
    (c10_fen_truncation {} ("rnbqkbnr/pppppppp/8/8/8/8/PPPPPPPP/RNBQKBNR w KQkq - 0 1".toList)
      18 {}).2.2 (by decide)⟩,
   (c10_fen_truncation {} ("rnbqkbnr/pppppppp/8/8/8/8/PPPPPPPP/RNBQKBNR w KQkq - 0 1".toList)
      18 { live := true, engine_ready := true }).1
     (("rnbqkbnr/pppppppp/8/8/8/8/PPPPPPPP/RNBQKBNR w KQkq - 0 1".toList).take 50) 18
     (by decide)⟩

theorem result_msgs_append (a b : List OutMsg) :
    result_msgs (a ++ b) = result_msgs a ++ result_msgs b := by
  simp [result_msgs, List.filter_append]

/-- With the suppress-results flag set, a single engine output line never
produces an eval or bestmove message, and the flag stays set. -/
theorem read_line_suppressed (l : List Char) (st : HostState)
    (h : st.stop_requested = true) :
    result_msgs (read_stockfish_line l st).2.1 = [] ∧
    (read_stockfish_line l st).1.stop_requested = true := by
  unfold read_stockfish_line
  by_cases he : pyStrip l = []
  · rw [if_pos he]
    simp [result_msgs, h]
  rw [if_neg he]
  by_cases hu : pyStrip l = "uciok".toList
  · rw [if_pos hu]
    simp [result_msgs, h]
  rw [if_neg hu]
  by_cases hr : pyStrip l = "readyok".toList
  · rw [if_pos hr]
    by_cases hready : st.engine_ready = true
    · rw [if_pos hready]
      simp [result_msgs, h]
    · rw [if_neg hready]
      simp [result_msgs, h]
  rw [if_neg hr]
  by_cases hi : ("info depth".toList).isPrefixOf (pyStrip l) = true
  · rw [if_pos hi, if_pos h]
    simp [result_msgs, h]
  rw [if_neg hi]
  by_cases hb : ("bestmove".toList).isPrefixOf (pyStrip l) = true
  · rw [if_pos hb]
    simp [result_msgs, h]
  · rw [if_neg hb]
    simp [result_msgs, h]

/-- With the suppress-results flag set, any sequence of engine output lines
produces no eval and no bestmove message, and the flag stays set. -/
theorem run_engine_suppressed (env : Env) (lines : List (List Char)) :
    ∀ st : HostState, st.stop_requested = true →
      result_msgs (run_events env (lines.map Ev.engine) st).2.1 = [] ∧
      (run_events env (lines.map Ev.engine) st).1.stop_requested = true := by
  induction lines with
  | nil =>
    intro st h
    simp [run_events, result_msgs, h]
  | cons l rest ih =>
    intro st h
    rcases hrl : read_stockfish_line l st with ⟨st1, ms1, cs1⟩
    have h1 := read_line_suppressed l st h
    rw [hrl] at h1
    rcases hre : run_events env (rest.map Ev.engine) st1 with ⟨st2, ms2, cs2⟩
    have h2 := ih st1 h1.2
    rw [hre] at h2
    simp only [List.map_cons, run_events, hrl, hre]
    exact ⟨by simp [result_msgs_append, h1.1, h2.1], h2.2⟩

/-- The stop dispatcher sets the suppress-results flag, never emits a
result message itself, and never breaks the loop. -/
theorem dispatch_stop_fields (env : Env) (st : HostState) :
    (main_dispatch env InMsg.stop st).1.stop_requested = true ∧
    result_msgs (main_dispatch env InMsg.stop st).2.1 = [] ∧
    (main_dispatch env InMsg.stop st).2.2.2 = false := by
  unfold main_dispatch
  by_cases hl : st.live <;> by_cases hw : env.writeOk <;> by_cases hso : env.startOk <;>
    simp [hl, hw, hso, kill_stockfish, start_stockfish, result_msgs]

/-- C8.  Cancellation: once a host `stop` command is processed (setting the
suppress-results flag) and no new `evaluate` intervenes, no bestmove and no
eval message is ever emitted for the cancelled analysis, whatever engine
output lines (including the bestmove that the engine emits in reply to the
stop) arrive afterwards; the flag remains set at the end of the run. -/
theorem c8_stop_suppresses_results (env : Env) (lines : List (List Char))
    (st : HostState) :
    result_msgs (run_events env (Ev.host InMsg.stop :: lines.map Ev.engine) st).2.1 = [] ∧
    (run_events env (Ev.host InMsg.stop :: lines.map Ev.engine) st).1.stop_requested = true := by
  have hkey := dispatch_stop_fields env st
  rcases hd : main_dispatch env InMsg.stop st with ⟨st1, ms1, cs1, brk⟩
  rw [hd] at hkey
  rcases hre : run_events env (lines.map Ev.engine) st1 with ⟨st2, ms2, cs2⟩
  have h2 := run_engine_suppressed env lines st1 hkey.1
  rw [hre] at h2
  have hbrk : brk = false := hkey.2.2
  subst hbrk
  simp only [run_events, hd, hre, if_false, Bool.false_eq_true]
  exact ⟨by simp [result_msgs_append, hkey.2.1, h2.1], h2.2⟩

/-- Witness for C8-adjacent lemmas at a concrete cancelled run: a stop
followed by the engine reply `bestmove e2e4` and an eval line forwards
nothing. -/
theorem c8_witness :
    result_msgs (run_events {} [Ev.host InMsg.stop,
        Ev.engine ("info depth 20 score cp 13 nps 500".toList),
        Ev.engine ("bestmove e2e4".toList)]
      { live := true, engine_ready := true, analysis_in_progress := true }).2.1 = [] :=
  (c8_stop_suppresses_results {}
    ["info depth 20 score cp 13 nps 500".toList, "bestmove e2e4".toList]
    { live := true, engine_ready := true, analysis_in_progress := true }).1

theorem isPrefixOf_append_self (xs r : List Char) : xs.isPrefixOf (xs ++ r) = true := by
  induction xs with
  | nil => simp [List.isPrefixOf]
  | cons c t ih => simp [List.isPrefixOf, ih]

theorem isPrefixOf_cons_cons (a b : Char) (as bs : List Char) :
    (a :: as).isPrefixOf (b :: bs) = ((a == b) && as.isPrefixOf bs) := rfl

/-- `strip()` is the identity on a string with no whitespace at either end. -/
theorem pyStrip_of_ends (a b : Char) (mid : List Char)
    (ha : isSpc a = false) (hb : isSpc b = false) :
    pyStrip (a :: (mid ++ [b])) = a :: (mid ++ [b]) := by
  simp [pyStrip, List.dropWhile_cons, ha, hb, List.reverse_append]

/-- `splitWsAux` on a run without whitespace yields one word. -/
theorem splitWsAux_nonspace (m : List Char) :
    m.all (fun c => !isSpc c) = true →
    ∀ acc : List Char, splitWsAux m acc =
      if acc = [] ∧ m = [] then [] else [acc.reverse ++ m] := by
  induction m with
  | nil =>
    intro _ acc
    by_cases hacc : acc = [] <;> simp [splitWsAux, hacc]
  | cons c rest ih =>
    intro hm acc
    simp only [List.all_cons, Bool.and_eq_true] at hm
    have hc : isSpc c = false := by
      cases hval : isSpc c
      · rfl
      · rw [hval] at hm
        simp at hm
    simp only [splitWsAux, hc]
    rw [ih hm.2 (c :: acc)]
    simp [List.reverse_cons, List.append_assoc]

/-- `split()` of a bestmove line with one nonempty whitespace-free token. -/
theorem splitWs_bestmove (m : List Char) (hm : m ≠ [])
    (hms : m.all (fun c => !isSpc c) = true) :
    splitWs ("bestmove ".toList ++ m) = ["bestmove".toList, m] := by
  have h9 : ("bestmove ".toList ++ m) =
      'b' :: 'e' :: 's' :: 't' :: 'm' :: 'o' :: 'v' :: 'e' :: ' ' :: m := rfl
  rw [splitWs, h9]
  simp only [splitWsAux]
  rw [splitWsAux_nonspace m hms []]
  simp +decide [hm]

/-- The reader-thread handling of a bestmove line with a move token, when
results are not suppressed: the analysis flag is cleared and the token is
forwarded. -/
theorem read_line_bestmove (m : List Char) (st : HostState) (hm : m ≠ [])
    (hms : m.all (fun c => !isSpc c) = true) (h : st.stop_requested = false) :
    read_stockfish_line ("bestmove ".toList ++ m) st =
      ({ st with analysis_in_progress := false }, [OutMsg.bestmove (some m)], []) := by
  rcases List.eq_nil_or_concat m with rfl | ⟨t, c, rfl⟩
  · exact absurd rfl hm
  simp only [List.concat_eq_append] at hm hms ⊢
  have hc : isSpc c = false := by
    have hcm := List.all_eq_true.mp hms c (by simp)
    simpa using hcm
  have hstrip : pyStrip ("bestmove ".toList ++ (t ++ [c])) =
      "bestmove ".toList ++ (t ++ [c]) := by
    have hsh : ("bestmove ".toList ++ (t ++ [c])) =
        'b' :: (("estmove ".toList ++ t) ++ [c]) := by
      simp
    rw [hsh, pyStrip_of_ends 'b' c _ (by decide) hc]
  unfold read_stockfish_line
  rw [hstrip]
  rw [if_neg (by simp : ¬("bestmove ".toList ++ (t ++ [c]) = []))]
  rw [if_neg (by simp +decide : ¬("bestmove ".toList ++ (t ++ [c]) = "uciok".toList))]
  rw [if_neg (by simp +decide : ¬("bestmove ".toList ++ (t ++ [c]) = "readyok".toList))]
  rw [if_neg (by simp +decide [isPrefixOf_cons_cons] :
    ¬(("info depth".toList).isPrefixOf ("bestmove ".toList ++ (t ++ [c])) = true))]
  have hpre : ("bestmove".toList).isPrefixOf ("bestmove ".toList ++ (t ++ [c])) = true := by
    have hshape : ("bestmove ".toList ++ (t ++ [c])) =
        "bestmove".toList ++ (' ' :: (t ++ [c])) := by simp
    rw [hshape]
    exact isPrefixOf_append_self _ _
  rw [if_pos hpre]
  rw [splitWs_bestmove (t ++ [c]) hm hms]
  simp [h]

/-- C1 counterexample.  A concrete run in which a second evaluate arrives
while the first is Analyzing: the coordinator sends stop plus the new
position/go, but `stop_requested` is false, so the engine reply to the
stop — the bestmove of the FIRST position — is forwarded, followed by the
second bestmove: two bestmove messages are emitted, not exactly one. -/
theorem c1_counterexample :
    bestmove_moves
      (run_events {} [Ev.host (InMsg.evaluate (some ("f1".toList)) (some 10)),
                      Ev.host (InMsg.evaluate (some ("f2".toList)) (some 12)),
                      Ev.engine ("bestmove e2e4".toList),
                      Ev.engine ("bestmove d2d4".toList)]
        { live := true, engine_ready := true }).2.1 =
      [some ("e2e4".toList), some ("d2d4".toList)] ∧
    (2 : Nat) ≠ 1 :=
  ⟨by decide, by decide⟩

/-- C1 amended.  When a second evaluate is submitted while an analysis is
in progress (and the engine then replies, per UCI, first with the bestmove
of the interrupted first search and then with the bestmove of the second),
the position/go commands are re-issued for the second — most recent —
position, but TWO bestmove messages are forwarded: first the one for the
superseded first position, then the one for the second. -/
theorem c1_supersession_two_bestmoves (f1 f2 m1 m2 : List Char) (d1 d2 : Nat)
    (hf1 : f1 ≠ []) (hf2 : f2 ≠ [])
    (hm1 : m1 ≠ []) (hm1s : m1.all (fun c => !isSpc c) = true)
    (hm2 : m2 ≠ []) (hm2s : m2.all (fun c => !isSpc c) = true) :
    run_events {} [Ev.host (InMsg.evaluate (some f1) (some d1)),
                   Ev.host (InMsg.evaluate (some f2) (some d2)),
                   Ev.engine ("bestmove ".toList ++ m1),
                   Ev.engine ("bestmove ".toList ++ m2)]
      { live := true, engine_ready := true } =
      ({ live := true, engine_ready := true, current_eval_fen := some f2 },
       [OutMsg.analyzing (f1.take 50) d1, OutMsg.analyzing (f2.take 50) d2,
        OutMsg.bestmove (some m1), OutMsg.bestmove (some m2)],
       [EngineCmd.position f1, EngineCmd.go d1, EngineCmd.stop,
        EngineCmd.position f2, EngineCmd.go d2]) := by
  have e1 := read_line_bestmove m1
    { live := true, engine_ready := true, analysis_in_progress := true,
      stop_requested := false, current_eval_fen := some f2 } hm1 hm1s rfl
  have e2 := read_line_bestmove m2
    { live := true, engine_ready := true, analysis_in_progress := false,
      stop_requested := false, current_eval_fen := some f2 } hm2 hm2s rfl
  simp at e1 e2
  simp [run_events, main_dispatch, analyze_position, start_stockfish, hf1, hf2, e1, e2]

/-- Witness for C1 at concrete fens and moves. -/
theorem c1_witness :
    run_events {} [Ev.host (InMsg.evaluate (some ("p1".toList)) (some 8)),
                   Ev.host (InMsg.evaluate (some ("p2".toList)) (some 9)),
                   Ev.engine ("bestmove ".toList ++ "a2a3".toList),
                   Ev.engine ("bestmove ".toList ++ "b2b3".toList)]
      { live := true, engine_ready := true } =
      ({ live := true, engine_ready := true, current_eval_fen := some ("p2".toList) },
       [OutMsg.analyzing (("p1".toList).take 50) 8, OutMsg.analyzing (("p2".toList).take 50) 9,
        OutMsg.bestmove (some ("a2a3".toList)), OutMsg.bestmove (some ("b2b3".toList))],
       [EngineCmd.position ("p1".toList), EngineCmd.go 8, EngineCmd.stop,
        EngineCmd.position ("p2".toList), EngineCmd.go 9]) :=
  c1_supersession_two_bestmoves ("p1".toList) ("p2".toList) ("a2a3".toList) ("b2b3".toList)
    8 9 (by decide) (by decide) (by decide) (by decide) (by decide) (by decide)

/-! ### Substring-search lemmas for parse_info -/

theorem findSub_of_isPrefixOf (pat l : List Char) (h : pat.isPrefixOf l = true) :
    findSub pat l = some 0 := by
  cases l <;> simp [findSub, h]

theorem findSub_append_of_nohit (pat xs ls : List Char) (h : NoHit pat xs ls) :
    findSub pat (xs ++ ls) = (findSub pat ls).map (· + xs.length) := by
  induction xs with
  | nil =>
    cases hfs : findSub pat ls <;> simp [hfs]
  | cons x t ih =>
    have h0 : pat.isPrefixOf (x :: (t ++ ls)) = false := by
      have hh := h 0 (by simp)
      simpa using hh
    have hrec : NoHit pat t ls := by
      intro p hp
      have hh := h (p + 1) (by simp only [List.length_cons]; omega)
      simpa [List.drop_succ_cons] using hh
    have h0' : ¬ (pat <+: (x :: (t ++ ls))) := by
      rw [← List.isPrefixOf_iff_prefix, h0]
      simp
    cases hfs : findSub pat ls <;>
      simp [findSub, List.cons_append, h0', hfs, ih hrec] <;> omega

theorem NoHit_append (pat xs ys ls : List Char)
    (h1 : NoHit pat xs (ys ++ ls)) (h2 : NoHit pat ys ls) :
    NoHit pat (xs ++ ys) ls := by
  intro p hp
  rw [List.append_assoc]
  by_cases hpx : p < xs.length
  · exact h1 p hpx
  · push_neg at hpx
    have hq : p = xs.length + (p - xs.length) := by omega
    rw [hq, List.drop_append]
    apply h2
    simp only [List.length_append] at hp
    omega

theorem NoHit_of_pred (P : Char → Bool) (h0 : Char) (pt xs ls : List Char)
    (hxs : xs.all P = true) (hmis : ∀ c, P c = true → (h0 == c) = false) :
    NoHit (h0 :: pt) xs ls := by
  intro p hp
  have hplt : p < (xs ++ ls).length := by
    simp only [List.length_append]
    omega
  rw [List.drop_eq_getElem_cons hplt, isPrefixOf_cons_cons,
    List.getElem_append_left hp]
  have hmem := List.getElem_mem hp
  have hPp := List.all_eq_true.mp hxs _ hmem
  rw [hmis _ hPp]
  rfl

theorem NoHit_single (h0 : Char) (pt : List Char) (c : Char) (ls : List Char)
    (hne : (h0 == c) = false) :
    NoHit (h0 :: pt) [c] ls := by
  intro p hp
  have hp0 : p = 0 := by simpa using hp
  subst hp0
  simp [isPrefixOf_cons_cons, hne]

theorem findSub_exact (pat X R : List Char) (h : NoHit pat X (pat ++ R)) :
    findSub pat (X ++ (pat ++ R)) = some X.length := by
  rw [findSub_append_of_nohit pat X _ h,
    findSub_of_isPrefixOf pat _ (isPrefixOf_append_self pat R)]
  simp

theorem drop_prefix_append (X R : List Char) (n : Nat) (h : n = X.length) :
    (X ++ R).drop n = R := by
  subst h
  simp

theorem takeWhile_append_of_all (p : Char → Bool) (xs ls : List Char)
    (h : xs.all p = true) :
    (xs ++ ls).takeWhile p = xs ++ ls.takeWhile p := by
  induction xs with
  | nil => simp
  | cons c t ih =>
    simp only [List.all_cons, Bool.and_eq_true] at h
    simp [List.takeWhile_cons, h.1, ih h.2]

theorem takeWhile_eq_self_of_all (p : Char → Bool) (xs : List Char)
    (h : xs.all p = true) :
    xs.takeWhile p = xs := by
  induction xs with
  | nil => simp
  | cons c t ih =>
    simp only [List.all_cons, Bool.and_eq_true] at h
    simp [List.takeWhile_cons, h.1, ih h.2]

theorem all_imp (P Q : Char → Bool) (h : ∀ c, P c = true → Q c = true)
    (xs : List Char) (hx : xs.all P = true) : xs.all Q = true := by
  rw [List.all_eq_true] at hx ⊢
  exact fun c hc => h c (hx c hc)

theorem digit_beq_false (h0 : Char) (hh : h0.isDigit = false) :
    ∀ c, c.isDigit = true → (h0 == c) = false := by
  intro c hc
  cases hbe : h0 == c
  · rfl
  · have heq : h0 = c := eq_of_beq hbe
    rw [heq, hc] at hh
    cases hh

theorem digit_or_minus_beq_false (h0 : Char) (hh : h0.isDigit = false)
    (hm : (h0 == '-') = false) :
    ∀ c, (c.isDigit || c == '-') = true → (h0 == c) = false := by
  intro c hc
  rcases Bool.or_eq_true_iff.mp hc with hd | hmi
  · exact digit_beq_false h0 hh c hd
  · have hceq : c = '-' := eq_of_beq hmi
    rw [hceq]
    exact hm

theorem pyInt_digits (ds : List Char) (h1 : ds ≠ []) (h2 : ds.all Char.isDigit = true) :
    pyInt ds = some ((digitsToNat ds : Nat) : Int) := by
  cases ds with
  | nil => exact absurd rfl h1
  | cons c t =>
    have hc : c.isDigit = true := by
      simp only [List.all_cons, Bool.and_eq_true] at h2
      exact h2.1
    have hne1 : ¬(c = '-') := by
      intro hceq
      subst hceq
      exact absurd hc (by decide)
    have hne2 : ¬(c = '+') := by
      intro hceq
      subst hceq
      exact absurd hc (by decide)
    simp [pyInt, hne1, hne2, h2]

theorem digit_not_space (c : Char) (hc : c.isDigit = true) : (c == ' ') = false := by
  cases hbe : c == ' '
  · rfl
  · have hceq : c = ' ' := eq_of_beq hbe
    rw [hceq] at hc
    exact absurd hc (by decide)

theorem dm_not_space (c : Char) (hc : (c.isDigit || c == '-') = true) :
    (c == ' ') = false := by
  rcases Bool.or_eq_true_iff.mp hc with h | h
  · exact digit_not_space c h
  · have hceq : c = '-' := eq_of_beq h
    subst hceq
    decide

/-- No early hit of `depth ` inside the leading `info `. -/
theorem nohit_depth_info (ls : List Char) :
    NoHit ("depth ".toList) ("info ".toList) ls := by
  intro p hp
  have hp5 : p < 5 := by simpa using hp
  interval_cases p <;> simp +decide [isPrefixOf_cons_cons]

/-- No early hit of `score cp ` inside the leading `info depth `. -/
theorem nohit_scorecp_infodepth (ls : List Char) :
    NoHit ("score cp ".toList) ("info depth ".toList) ls := by
  intro p hp
  have hp11 : p < 11 := by simpa using hp
  interval_cases p <;> simp +decide [isPrefixOf_cons_cons]

/-- No early hit of `nps ` inside the leading `info depth `. -/
theorem nohit_nps_infodepth (ls : List Char) :
    NoHit ("nps ".toList) ("info depth ".toList) ls := by
  intro p hp
  have hp11 : p < 11 := by simpa using hp
  interval_cases p <;> simp +decide [isPrefixOf_cons_cons]

/-- No early hit of `nps ` inside ` score cp `. -/
theorem nohit_nps_scorecp (ls : List Char) :
    NoHit ("nps ".toList) (" score cp ".toList) ls := by
  intro p hp
  have hp10 : p < 10 := by simpa using hp
  interval_cases p <;> simp +decide [isPrefixOf_cons_cons]

theorem upd_depth_set (line : List Char) (d : EvalData) (i : Nat) (v : Int)
    (hf : findSub ("depth ".toList) line = some i)
    (hp : pyInt ((line.drop (i + 6)).takeWhile (fun c => !(c == ' '))) = some v) :
    upd_depth line d = { d with depth := some v } := by
  unfold upd_depth
  simp only [hf, hp]

theorem upd_score_set_cp (line : List Char) (d : EvalData) (i : Nat) (v : Int)
    (hf : findSub ("score cp ".toList) line = some i)
    (hp : pyInt ((line.drop (i + 9)).takeWhile (fun c => c.isDigit || c == '-')) = some v) :
    upd_score line d = { d with cp := some v } := by
  unfold upd_score
  simp only [hf, hp]

theorem upd_nps_set (line : List Char) (d : EvalData) (i : Nat) (v : Int)
    (hf : findSub ("nps ".toList) line = some i)
    (hp : pyInt ((line.drop (i + 4)).takeWhile (fun c => !(c == ' '))) = some v) :
    upd_nps line d = { d with nps := some v } := by
  unfold upd_nps
  simp only [hf, hp]

/-- The principal-variation block touches only the bestMove and pv keys. -/
theorem upd_pv_fields (line : List Char) (d : EvalData) :
    (upd_pv line d).depth = d.depth ∧ (upd_pv line d).cp = d.cp ∧
    (upd_pv line d).mate = d.mate ∧ (upd_pv line d).nps = d.nps := by
  unfold upd_pv
  cases hf : findSub (" pv ".toList) line with
  | none => simp
  | some i =>
    cases hs : splitWs (line.drop (i + 4)) with
    | nil => simp [hs]
    | cons m rest => simp [hs]

/-- C4.  For every engine output line of the shape
`info depth D score cp C <mid> nps N` — D and N decimal digit strings, C a
digit string with an optional leading minus sign, `<mid>` arbitrary filler
that contains no earlier `nps ` occurrence (the stated `nps N` is the nps
field the line carries) — `parse_info` returns evaluation data with exactly
depth D, cp C and nps N, and with no mate field: cp and mate are mutually
exclusive because the mate branch is only reached when `score cp ` is
absent from the line. -/
theorem c4_info_cp_line (ds cs ns mid : List Char) (D C N : Int)
    (hds2 : ds.all Char.isDigit = true) (hds3 : pyInt ds = some D)
    (hcs2 : cs.all (fun c => c.isDigit || c == '-') = true) (hcs3 : pyInt cs = some C)
    (hns2 : ns.all Char.isDigit = true) (hns3 : pyInt ns = some N)
    (hmid : NoHit ("nps ".toList) ((' ' :: mid) ++ [' ']) ("nps ".toList ++ ns)) :
    ∃ d : EvalData,
      parse_info ("info depth ".toList ++ ds ++ " score cp ".toList ++ cs ++
        [' '] ++ mid ++ " nps ".toList ++ ns) = some d ∧
      d.depth = some D ∧ d.cp = some C ∧ d.nps = some N ∧ d.mate = none := by
  set L : List Char := "info depth ".toList ++ ds ++ " score cp ".toList ++ cs ++
    [' '] ++ mid ++ " nps ".toList ++ ns with hL
  have hds_nosp : ds.all (fun c => !(c == ' ')) = true :=
    all_imp _ _ (fun c hc => by simp [digit_not_space c hc]) ds hds2
  have hns_nosp : ns.all (fun c => !(c == ' ')) = true :=
    all_imp _ _ (fun c hc => by simp [digit_not_space c hc]) ns hns2
  -- depth field: the first `depth ` occurrence is at index 5
  have hdec1 : L = "info ".toList ++ ("depth ".toList ++ (ds ++ (" score cp ".toList ++
      (cs ++ ([' '] ++ (mid ++ (" nps ".toList ++ ns))))))) := by
    rw [hL]
    simp
  have hfd : findSub ("depth ".toList) L = some 5 := by
    rw [hdec1, findSub_exact _ _ _ (nohit_depth_info _)]
    decide
  have hdec2 : L = "info depth ".toList ++ (ds ++ (' ' :: ("score cp ".toList ++
      (cs ++ ([' '] ++ (mid ++ (" nps ".toList ++ ns))))))) := by
    rw [hL]
    simp
  have hpd : pyInt ((L.drop (5 + 6)).takeWhile (fun c => !(c == ' '))) = some D := by
    rw [hdec2, drop_prefix_append _ _ _ (by decide),
      takeWhile_append_of_all _ _ _ hds_nosp]
    simp +decide [List.takeWhile_cons]
    exact hds3
  -- cp field: the first `score cp ` occurrence is right after the depth value
  have hdec3 : L = ("info depth ".toList ++ (ds ++ [' '])) ++ ("score cp ".toList ++
      (cs ++ (' ' :: (mid ++ (' ' :: ("nps ".toList ++ ns)))))) := by
    rw [hL]
    simp
  have hnh2 : NoHit ("score cp ".toList) ("info depth ".toList ++ (ds ++ [' ']))
      ("score cp ".toList ++ (cs ++ (' ' :: (mid ++ (' ' :: ("nps ".toList ++ ns)))))) := by
    apply NoHit_append
    · exact nohit_scorecp_infodepth _
    · apply NoHit_append
      · exact NoHit_of_pred Char.isDigit 's' _ ds _ hds2 (digit_beq_false 's' (by decide))
      · exact NoHit_single 's' _ ' ' _ (by decide)
  have hfc : findSub ("score cp ".toList) L = some (ds.length + 12) := by
    rw [hdec3, findSub_exact _ _ _ hnh2]
    simp [List.length_append]
  have hdec4 : L = ("info depth ".toList ++ ds ++ " score cp ".toList) ++
      (cs ++ (' ' :: (mid ++ (' ' :: ("nps ".toList ++ ns))))) := by
    rw [hL]
    simp
  have hpc : pyInt ((L.drop (ds.length + 12 + 9)).takeWhile
      (fun c => c.isDigit || c == '-')) = some C := by
    rw [hdec4, drop_prefix_append _ _ _ (by simp [List.length_append]),
      takeWhile_append_of_all _ _ _ hcs2]
    simp +decide [List.takeWhile_cons]
    exact hcs3
  -- nps field: by hypothesis, the first `nps ` occurrence is the final field
  have hdec5 : L = ("info depth ".toList ++ (ds ++ (" score cp ".toList ++
      (cs ++ ((' ' :: mid) ++ [' ']))))) ++ ("nps ".toList ++ ns) := by
    rw [hL]
    simp
  have hnh3 : NoHit ("nps ".toList)
      ("info depth ".toList ++ (ds ++ (" score cp ".toList ++ (cs ++ ((' ' :: mid) ++ [' '])))))
      ("nps ".toList ++ ns) := by
    apply NoHit_append
    · exact nohit_nps_infodepth _
    · apply NoHit_append
      · exact NoHit_of_pred Char.isDigit 'n' _ ds _ hds2 (digit_beq_false 'n' (by decide))
      · apply NoHit_append
        · exact nohit_nps_scorecp _
        · apply NoHit_append
          · exact NoHit_of_pred (fun c => c.isDigit || c == '-') 'n' _ cs _ hcs2
              (digit_or_minus_beq_false 'n' (by decide) (by decide))
          · exact hmid
  have hfn : findSub ("nps ".toList) L = some (("info depth ".toList ++ (ds ++
      (" score cp ".toList ++ (cs ++ ((' ' :: mid) ++ [' ']))))).length) := by
    rw [hdec5, findSub_exact _ _ _ hnh3]
  have hdec6 : L = (("info depth ".toList ++ (ds ++ (" score cp ".toList ++
      (cs ++ ((' ' :: mid) ++ [' ']))))) ++ "nps ".toList) ++ ns := by
    rw [hL]
    simp
  have hpn : pyInt ((L.drop ((("info depth ".toList ++ (ds ++ (" score cp ".toList ++
      (cs ++ ((' ' :: mid) ++ [' ']))))).length) + 4)).takeWhile
      (fun c => !(c == ' '))) = some N := by
    rw [hdec6, drop_prefix_append _ _ _ (by simp [List.length_append]; omega),
      takeWhile_eq_self_of_all _ _ hns_nosp]
    exact hns3
  -- assemble the four blocks
  have hchain : upd_score L (upd_depth L ({} : EvalData)) =
      { depth := some D, cp := some C } := by
    rw [upd_depth_set L {} 5 D hfd hpd, upd_score_set_cp L _ (ds.length + 12) C hfc hpc]
  have hpvf := upd_pv_fields L { depth := some D, cp := some C }
  refine ⟨{ (upd_pv L { depth := some D, cp := some C }) with nps := some N },
    ?_, ?_, ?_, ?_, ?_⟩
  · simp only [parse_info, hchain, upd_nps_set L _ _ N hfn hpn]
    simp [hpvf.2.1]
  · simp [hpvf.1]
  · simp [hpvf.2.1]
  · simp
  · simp [hpvf.2.2.1]

/-- Witness for C4 at the line `info depth 20 score cp -13 nodes 4000 nps 500`. -/
theorem c4_witness :
    (("20".toList).all Char.isDigit = true ∧ pyInt ("20".toList) = some 20 ∧
      ("-13".toList).all (fun c => c.isDigit || c == '-') = true ∧
      pyInt ("-13".toList) = some (-13) ∧
      ("500".toList).all Char.isDigit = true ∧ pyInt ("500".toList) = some 500 ∧
      NoHit ("nps ".toList) ((' ' :: "nodes 4000".toList) ++ [' '])
        ("nps ".toList ++ "500".toList)) ∧
    (∃ d : EvalData,
      parse_info ("info depth ".toList ++ "20".toList ++ " score cp ".toList ++
        "-13".toList ++ [' '] ++ "nodes 4000".toList ++ " nps ".toList ++ "500".toList) =
        some d ∧
      d.depth = some 20 ∧ d.cp = some (-13) ∧ d.nps = some 500 ∧ d.mate = none) :=
  ⟨⟨by decide, by decide, by decide, by decide, by decide, by decide, by decide⟩,
    c4_info_cp_line ("20".toList) ("-13".toList) ("500".toList) ("nodes 4000".toList)
      20 (-13) 500 (by decide) (by decide) (by decide) (by decide) (by decide) (by decide)
      (by decide)⟩

end Chessist
